import Mathlib

/-!
Verification of the agent-desk coordination daemon (Rust sources under
`src-tauri/src` and `hooks/src`) against its natural-language specification.

The Rust code is shallowly embedded:
* `HashMap<String, V>` becomes an association list `List (String × V)`;
  iteration order of a `HashMap` is arbitrary, so theorems quantify over
  every list order.
* `f64` Unix timestamps become `ℚ`.
* `serde_json::Value` becomes the inductive `Json`.
* one-shot decision channels are represented by the set of request ids that
  hold a live sender (`PermissionStore.senders`).
-/

namespace AgentDesk

/-! ## Association-list model of `std::collections::HashMap` -/

/-- Lookup by key in an association list (models `HashMap::get`). -/
def lookupA (k : String) : List (String × α) → Option α
  | [] => none
  | kv :: rest => if kv.1 = k then some kv.2 else lookupA k rest

/-- Replace the value stored at key `k` (used when the key is present). -/
def setA (k : String) (v : α) (m : List (String × α)) : List (String × α) :=
  m.map (fun kv => if kv.1 = k then (k, v) else kv)

/-- Remove the entry with key `k` (models `HashMap::remove`). -/
def removeKeyA (k : String) (m : List (String × α)) : List (String × α) :=
  m.filter (fun kv => kv.1 ≠ k)

/-- Insert-or-replace (models `HashMap::insert`). -/
def insertKeyA (k : String) (v : α) (m : List (String × α)) : List (String × α) :=
  if (lookupA k m).isSome then setA k v m else m ++ [(k, v)]

theorem lookupA_setA_self (k : String) (v : α) (m : List (String × α)) :
    lookupA k (setA k v m) = if (lookupA k m).isSome then some v else none := by
  induction m with
  | nil => simp [lookupA, setA]
  | cons kv rest ih =>
    by_cases h : kv.1 = k
    · simp [lookupA, setA, h]
    · simpa [lookupA, setA, h] using ih

theorem lookupA_append_single (k : String) (v : α) (m : List (String × α))
    (h : lookupA k m = none) : lookupA k (m ++ [(k, v)]) = some v := by
  induction m with
  | nil => simp [lookupA]
  | cons kv rest ih =>
    by_cases hk : kv.1 = k
    · simp [lookupA, hk] at h
    · simp only [lookupA, hk] at h
      simp [lookupA, hk, ih h]

theorem lookupA_insertKeyA_self (k : String) (v : α) (m : List (String × α)) :
    lookupA k (insertKeyA k v m) = some v := by
  unfold insertKeyA
  by_cases h : (lookupA k m).isSome
  · simp [h, lookupA_setA_self]
  · rw [if_neg h]
    exact lookupA_append_single k v m (Option.not_isSome_iff_eq_none.mp h)

theorem lookupA_removeKeyA_self (k : String) (m : List (String × α)) :
    lookupA k (removeKeyA k m) = none := by
  induction m with
  | nil => simp [lookupA, removeKeyA]
  | cons kv rest ih =>
    by_cases h : kv.1 = k
    · simpa [removeKeyA, h] using ih
    · simpa [removeKeyA, lookupA, h] using ih

theorem removeKeyA_of_lookupA_none (k : String) (m : List (String × α))
    (h : lookupA k m = none) : removeKeyA k m = m := by
  induction m with
  | nil => rfl
  | cons kv rest ih =>
    by_cases hk : kv.1 = k
    · simp [lookupA, hk] at h
    · simp only [lookupA, hk] at h
      simp [removeKeyA, hk] at ih ⊢
      exact ih h

/-! ## Wire protocol (`protocol.rs`) -/

/-- `HookEvent` — all hook event types sent by the hook binary. -/
inductive HookEvent where
  | UserPrompt
  | PreTool
  | Stop
  | Notification
  | SessionStart
  | SessionEnd
  | PermissionRequest
  | Unknown
  deriving DecidableEq

/-- The `Display` impl of `HookEvent` (snake_case strings). -/
def HookEvent.display : HookEvent → String
  | .UserPrompt => "user_prompt"
  | .PreTool => "pre_tool"
  | .Stop => "stop"
  | .Notification => "notification"
  | .SessionStart => "session_start"
  | .SessionEnd => "session_end"
  | .PermissionRequest => "permission_request"
  | .Unknown => "unknown"

/-- `SessionStatus` — internal session status. -/
inductive SessionStatus where
  | Idle
  | Active
  | Waiting
  | Ended
  | Stopped
  | Unknown
  deriving DecidableEq

/-- `PermissionDecisionKind` — permission decision sent by the UI. -/
inductive PermissionDecisionKind where
  | Allow
  | Deny
  | AlwaysAllow
  deriving DecidableEq

/-- `PermissionDecisionKind::to_behavior` — map to the hookSpecificOutput
behavior string. -/
def PermissionDecisionKind.to_behavior : PermissionDecisionKind → String
  | .Allow | .AlwaysAllow => "approve"
  | .Deny => "deny"

/-! ## JSON values (`serde_json::Value`) -/

/-- Shallow model of `serde_json::Value`. Numbers are modelled as `ℚ`. -/
inductive Json where
  | null
  | bool (b : Bool)
  | num (n : ℚ)
  | str (s : String)
  | arr (xs : List Json)
  | obj (fields : List (String × Json))

/-- `Value::get` on an object followed by nothing (field access). -/
def Json.getField : Json → String → Option Json
  | .obj fields, k => lookupA k fields
  | _, _ => none

/-- `Value::as_str`. -/
def Json.asStr : Json → Option String
  | .str s => some s
  | _ => none

/-! ## Session tracker (`session.rs`) -/

/-- `SessionInfo` record. -/
structure SessionInfo where
  session_id : String
  cwd : String
  model : Option String
  status : SessionStatus
  started_at : ℚ
  updated_at : ℚ
  last_message : Option String
  notification_type : Option String
  notification_message : Option String
  agent_pid : Option Nat
  parent_session_id : Option String
  deriving DecidableEq

/-- `SessionUpdate` builder — only the `Some` fields are applied. -/
structure SessionUpdate where
  status : Option SessionStatus := none
  cwd : Option String := none
  last_message : Option String := none
  notification_type : Option String := none
  notification_message : Option String := none
  agent_pid : Option Nat := none
  parent_session_id : Option String := none

/-- The fresh entry created by `SessionTracker::update` via
`or_insert_with` when the session id is absent. -/
def freshSessionInfo (sid : String) (now : ℚ) : SessionInfo :=
  { session_id := sid
    cwd := ""
    model := none
    status := .Unknown
    started_at := now
    updated_at := now
    last_message := none
    notification_type := none
    notification_message := none
    agent_pid := none
    parent_session_id := none }

/-- Field-wise application of the `Some` fields of a `SessionUpdate`,
followed by the unconditional `updated_at = now` bump. -/
def applySessionUpdate (base : SessionInfo) (u : SessionUpdate) (now : ℚ) :
    SessionInfo :=
  { base with
    status := match u.status with | some s => s | none => base.status
    cwd := match u.cwd with | some c => c | none => base.cwd
    last_message :=
      match u.last_message with | some m => some m | none => base.last_message
    notification_type :=
      match u.notification_type with
      | some v => some v
      | none => base.notification_type
    notification_message :=
      match u.notification_message with
      | some v => some v
      | none => base.notification_message
    agent_pid := match u.agent_pid with | some v => some v | none => base.agent_pid
    parent_session_id :=
      match u.parent_session_id with
      | some v => some v
      | none => base.parent_session_id
    updated_at := now }

/-- `SessionTracker::update` — `entry(sid).or_insert_with(default)` then the
field-wise mutation. -/
def SessionTracker.update (m : List (String × SessionInfo)) (sid : String)
    (u : SessionUpdate) (now : ℚ) : List (String × SessionInfo) :=
  match lookupA sid m with
  | some e => setA sid (applySessionUpdate e u now) m
  | none => m ++ [(sid, applySessionUpdate (freshSessionInfo sid now) u now)]

/-- `SessionTracker::register` — unconditional insert of a fresh `Idle`
entry. -/
def SessionTracker.register (m : List (String × SessionInfo)) (sid cwd : String)
    (model : Option String) (agent_pid : Option Nat) (now : ℚ) :
    List (String × SessionInfo) :=
  insertKeyA sid
    { session_id := sid
      cwd := cwd
      model := model
      status := .Idle
      started_at := now
      updated_at := now
      last_message := none
      notification_type := none
      notification_message := none
      agent_pid := agent_pid
      parent_session_id := none } m

/-- The startup stale-demotion applied to one snapshot entry in
`SessionTracker::new`. -/
def demoteStale (now : ℚ) (info : SessionInfo) : SessionInfo :=
  let is_stale := (now - info.updated_at) > 300
  let should_demote := is_stale ∧
    (info.status = .Active ∨ info.status = .Waiting ∨ info.status = .Stopped)
  if should_demote then { info with status := .Idle } else info

/-- `SessionTracker::new` — load the snapshot and run the stale-demotion
pass over every entry. -/
def SessionTracker.new (now : ℚ) (snapshot : List (String × SessionInfo)) :
    List (String × SessionInfo) :=
  snapshot.map (fun kv => (kv.1, demoteStale now kv.2))

/-! ## Permission store (`permission.rs`) -/

/-- `PermissionRequest` record. -/
structure PermissionRequest where
  id : String
  session_id : String
  cwd : String
  tool_name : String
  tool_input : Json
  permission_suggestions : Json
  timestamp : ℚ
  timeout_secs : Nat

/-- `PermissionStore` — pending requests keyed by id, the ids holding a live
one-shot sender, and session auto-approve rules. -/
structure PermissionStore where
  requests : List (String × PermissionRequest)
  senders : List String
  session_rules : List (String × String)

/-- `PermissionStore::register` — insert the request and a fresh one-shot
sender under its id. -/
def PermissionStore.register (st : PermissionStore) (req : PermissionRequest) :
    PermissionStore :=
  { st with
    requests := insertKeyA req.id req st.requests
    senders := if st.senders.contains req.id then st.senders
               else st.senders ++ [req.id] }

/-- `PermissionStore::respond` — remove the request, and forward the decision
on the sender if one exists (a live sender whose receiver is awaited makes
`tx.send` succeed). Returns the success flag and the new store. -/
def PermissionStore.respond (st : PermissionStore) (id : String)
    (_d : PermissionDecisionKind) : Bool × PermissionStore :=
  let st1 := { st with requests := removeKeyA id st.requests }
  if st1.senders.contains id then
    (true, { st1 with senders := st1.senders.filter (fun k => k ≠ id) })
  else
    (false, st1)

/-- `PermissionStore::remove` — clean up both maps without signaling. -/
def PermissionStore.remove (st : PermissionStore) (id : String) :
    PermissionStore :=
  { st with
    requests := removeKeyA id st.requests
    senders := st.senders.filter (fun k => k ≠ id) }

/-- `PermissionStore::get_pending` — all pending requests, for UI display. -/
def PermissionStore.get_pending (st : PermissionStore) :
    List PermissionRequest :=
  st.requests.map Prod.snd

/-! ## Event store (`events.rs`) -/

/-- `Event` record (one JSONL line). -/
structure Event where
  id : String
  ts : ℚ
  event : HookEvent
  session_id : String
  cwd : String
  message : String
  notification_type : String
  last_assistant_message : String
  level : Nat
  cleared : Bool
  deriving DecidableEq

/-- State of the `EventStore`: the in-memory cache, the parsed content of the
backing JSONL file (one `Event` per line; serialization round-trips), and the
`(mtime, size)` stamps of both. The file size is modelled by its number of
lines. -/
structure EventStoreState where
  cacheEvents : List Event
  file : List Event
  cacheMtime : Option ℚ
  cacheSize : Nat
  fileMtime : Option ℚ
  fileSize : Nat

/-- `EventStore::refresh_cache` — re-read the file only if `(mtime, size)`
changed. -/
def EventStore.refresh_cache (st : EventStoreState) : EventStoreState :=
  if st.cacheMtime = st.fileMtime ∧ st.cacheSize = st.fileSize then st
  else
    { st with
      cacheEvents := st.file
      cacheMtime := st.fileMtime
      cacheSize := st.fileSize }

/-- `EventStore::get_events` — refresh, then filter out cleared events and,
when `after_ts > 0`, events not newer than `after_ts`. -/
def EventStore.get_events (st : EventStoreState) (after_ts : ℚ) : List Event :=
  let st1 := EventStore.refresh_cache st
  if after_ts > 0 then
    st1.cacheEvents.filter (fun e => ¬ e.cleared ∧ e.ts > after_ts)
  else
    st1.cacheEvents.filter (fun e => ¬ e.cleared)

/-- `EventStore::clear_all` — flip `cleared = true` on every in-memory entry,
rewrite the file from that snapshot, and stamp the cache with the rewritten
file's metadata. `newMtime` is the mtime the filesystem assigns to the
rewrite. -/
def EventStore.clear_all (st : EventStoreState) (newMtime : ℚ) :
    EventStoreState :=
  let clearedEvents := st.cacheEvents.map (fun e => { e with cleared := true })
  { cacheEvents := clearedEvents
    file := clearedEvents
    cacheMtime := some newMtime
    cacheSize := clearedEvents.length
    fileMtime := some newMtime
    fileSize := clearedEvents.length }

/-! ## Core server state and handlers (`server.rs`) -/

/-- The parts of `AppState` the verified handlers touch. -/
structure ServerState where
  tracker : List (String × SessionInfo)
  events : List Event
  dedup : List (String × ℚ)

/-- `SignalPayload` for `POST /api/signal`; absent JSON fields decode to the
defaults. -/
structure SignalPayload where
  event : HookEvent
  session_id : String := ""
  cwd : String := ""
  notification_type : String := ""
  message : String := ""
  last_assistant_message : String := ""
  model : String := ""
  hook_pid : Option Nat := none
  parent_session_id : Option String := none

/-- Step 1 of `api_signal` — the session-state transition table. -/
def signalSessionUpdate (tracker : List (String × SessionInfo))
    (p : SignalPayload) (now : ℚ) : List (String × SessionInfo) :=
  if p.session_id = "" then tracker
  else
    match p.event with
    | .SessionStart =>
      let t1 := SessionTracker.register tracker p.session_id p.cwd
        (if p.model = "" then none else some p.model) none now
      match p.parent_session_id with
      | some parent_id =>
        if parent_id ≠ "" then
          SessionTracker.update t1 p.session_id
            { parent_session_id := some parent_id } now
        else t1
      | none => t1
    | .SessionEnd =>
      SessionTracker.update tracker p.session_id
        { status := some .Ended, cwd := some p.cwd } now
    | .Stop =>
      SessionTracker.update tracker p.session_id
        { status := some .Waiting
          cwd := some p.cwd
          last_message :=
            if p.last_assistant_message = "" then none
            else some p.last_assistant_message
          notification_type := some ""
          notification_message := some "" } now
    | .Notification =>
      let status :=
        if p.notification_type = "permission_prompt" then SessionStatus.Waiting
        else SessionStatus.Idle
      SessionTracker.update tracker p.session_id
        { status := some status
          cwd := some p.cwd
          notification_type :=
            if p.notification_type = "" then none
            else some p.notification_type
          notification_message :=
            if p.message = "" then none else some p.message } now
    | _ => tracker

/-- `format_event_message` — the human-readable event text. -/
def formatEventMessage (event : HookEvent)
    (short_sid cwd ntype nmsg last_msg model : String) : String :=
  match event with
  | .Stop =>
    let truncated :=
      if last_msg.length > 300 then last_msg.take 297 ++ "..." else last_msg
    "[Done] " ++ short_sid ++ "\n" ++ cwd ++ "\n" ++ truncated
  | .Notification =>
    if ntype = "permission_prompt" then
      "[Confirm] " ++ short_sid ++ "\n" ++ nmsg
    else if ntype = "idle_prompt" then
      "[Idle] " ++ short_sid ++ " waiting for input"
    else
      "[Notice] " ++ short_sid ++ "\n" ++ nmsg
  | .SessionStart =>
    let m := if model = "" then "unknown" else model
    "[Start] " ++ short_sid ++ " | " ++ m ++ " | " ++ cwd
  | .SessionEnd => "[End] " ++ short_sid
  | _ => "[" ++ event.display ++ "] " ++ short_sid

/-- The event level assigned by `api_signal`. -/
def eventLevel : HookEvent → Nat
  | .SessionStart | .SessionEnd => 1
  | .Stop => 2
  | .Notification => 3
  | _ => 1

/-- The first at-most-8 characters of the session id, as computed by
`api_signal` (`&sid[..8]`; byte and char indices agree on the ASCII session
ids the agent emits). -/
def shortSidOf (sid : String) : String :=
  if sid.length > 8 then sid.take 8 else sid

/-- `api_signal` — session update, then append exactly one event built from
the payload. `rand6` models the 6-char uuid fragment in the event id. -/
def apiSignal (s : ServerState) (p : SignalPayload) (now : ℚ)
    (rand6 : String) : ServerState :=
  let tracker1 := signalSessionUpdate s.tracker p now
  let short_sid := shortSidOf p.session_id
  let message := formatEventMessage p.event short_sid p.cwd
    p.notification_type p.message p.last_assistant_message p.model
  let evt : Event :=
    { id := "evt_" ++ toString now.floor ++ "_" ++ rand6
      ts := now
      event := p.event
      session_id := p.session_id
      cwd := p.cwd
      message := message
      notification_type := p.notification_type
      last_assistant_message := p.last_assistant_message
      level := eventLevel p.event
      cleared := false }
  { s with tracker := tracker1, events := s.events ++ [evt] }

/-- Responses of `api_hook` after a successful body decode. -/
inductive HookResp where
  | ok
  | okDedup
  deriving DecidableEq

/-- The dedup-cache key `"<sid>:<event>"`. -/
def dedupKey (sid : String) (ev : HookEvent) : String :=
  sid ++ ":" ++ ev.display

/-- `api_hook` — dedup by `"<sid>:<event>"` within a 500 ms window; on a
miss record `now` and, for `UserPrompt`/`PreTool`, set the session `Active`
and clear its notification. -/
def apiHook (s : ServerState) (event : Option HookEvent) (sid cwd : String)
    (now : ℚ) : HookResp × ServerState :=
  let hit : Bool :=
    match event with
    | some ev =>
      if sid ≠ "" then
        match lookupA (dedupKey sid ev) s.dedup with
        | some last => decide (now - last < 1/2)
        | none => false
      else false
    | none => false
  if hit then (.okDedup, s)
  else
    let s1 :=
      match event with
      | some ev =>
        if sid ≠ "" then
          { s with dedup := insertKeyA (dedupKey sid ev) now s.dedup }
        else s
      | none => s
    let s2 :=
      if sid ≠ "" ∧ (event = some .UserPrompt ∨ event = some .PreTool) then
        { s1 with
          tracker := SessionTracker.update s1.tracker sid
            { status := some .Active
              cwd := some cwd
              notification_type := some ""
              notification_message := some "" } now }
      else s1
    (.ok, s2)

/-- Run a sequence of `api_hook` calls (same session and event) at the given
times, threading the server state. -/
def apiHookRun (s : ServerState) (event : Option HookEvent) (sid cwd : String) :
    List ℚ → List HookResp × ServerState
  | [] => ([], s)
  | t :: ts =>
    let r := apiHook s event sid cwd t
    let rest := apiHookRun r.2 event sid cwd ts
    (r.1 :: rest.1, rest.2)

/-- The call times of a run that were processed (response `ok`, not
`okDedup`). -/
def processedTimes (s : ServerState) (event : Option HookEvent)
    (sid cwd : String) : List ℚ → List ℚ
  | [] => []
  | t :: ts =>
    let r := apiHook s event sid cwd t
    let rest := processedTimes r.2 event sid cwd ts
    if r.1 = .ok then t :: rest else rest

/-! ## Reconciliation (`scan_and_merge` in `server.rs`) -/

/-- `ProcessInfo` — one scanned OS process. -/
structure ProcessInfo where
  pid : Nat
  name : String
  agent_type : String
  cwd : String
  uptime : ℚ
  create_time : ℚ
  deriving DecidableEq

/-- One merged output row of `scan_and_merge` (the JSON object's fields). -/
structure MergedRow where
  pid : Nat
  name : String
  agent_type : String
  cwd : String
  uptime : ℚ
  create_time : ℚ
  status : String
  session_id : String
  notification_type : String
  notification_message : String
  last_message : String
  deriving DecidableEq

/-- CWD normalization: `/`→`\` (`replace` with a single-char pattern is a
per-character substitution), lowercase, strip trailing `\`. Implemented on
the character list so it evaluates structurally. -/
def normalizeCwd (s : String) : String :=
  String.mk
    ((((s.data.map (fun c => if c = '/' then '\\' else c)).map
        Char.toLower).reverse.dropWhile (fun c => c == '\\')).reverse)

/-- The status-string mapping used for merged rows. -/
def mergedStatus : SessionStatus → String
  | .Waiting | .Idle => "waiting"
  | .Stopped | .Ended => "stopped"
  | .Active => "active"
  | .Unknown => "waiting"

/-- Phase-1 row: tracker CWD when present, else scanner CWD. -/
def mkRowPhase1 (p : ProcessInfo) (info : SessionInfo) : MergedRow :=
  { pid := p.pid
    name := p.name
    agent_type := p.agent_type
    cwd := if info.cwd = "" then p.cwd else info.cwd
    uptime := p.uptime
    create_time := p.create_time
    status := mergedStatus info.status
    session_id := info.session_id
    notification_type := info.notification_type.getD ""
    notification_message := info.notification_message.getD ""
    last_message := info.last_message.getD "" }

/-- Phase-2 row: always the tracker CWD. -/
def mkRowPhase2 (p : ProcessInfo) (info : SessionInfo) : MergedRow :=
  { pid := p.pid
    name := p.name
    agent_type := p.agent_type
    cwd := info.cwd
    uptime := p.uptime
    create_time := p.create_time
    status := mergedStatus info.status
    session_id := info.session_id
    notification_type := info.notification_type.getD ""
    notification_message := info.notification_message.getD ""
    last_message := info.last_message.getD "" }

/-- The `cwd_tracker` bucket for a normalized key: tracked entries that are
not `Ended` and whose normalized CWD is non-empty and equals the key. (The
`matched_sessions.contains` check in the map-building loop of the source is
dead code — the set is still empty there.) -/
def cwdBucket (tracked : List SessionInfo) (key : String) : List SessionInfo :=
  tracked.filter
    (fun i => i.status ≠ .Ended ∧ normalizeCwd i.cwd ≠ "" ∧
      normalizeCwd i.cwd = key)

/-- The accumulator loop of `Iterator::max_by`: keep the running maximum,
preferring the later element on ties. -/
def maxByUpdatedGo (a : SessionInfo) : List SessionInfo → SessionInfo
  | [] => a
  | x :: xs => maxByUpdatedGo (if a.updated_at ≤ x.updated_at then x else a) xs

/-- `Iterator::max_by` on `updated_at` (the last maximal element wins). -/
def maxByUpdated : List SessionInfo → Option SessionInfo
  | [] => none
  | x :: xs => some (maxByUpdatedGo x xs)

/-- Phase 1 of `scan_and_merge`: for each process, pick the not-yet-matched
bucket entry with greatest `updated_at`; returns the merged rows, the
unmatched processes (in order) and the final matched-session set. -/
def phase1 (tracked : List SessionInfo) :
    List ProcessInfo → List String →
      List MergedRow × List ProcessInfo × List String
  | [], matched => ([], [], matched)
  | p :: ps, matched =>
    let bucket := cwdBucket tracked (normalizeCwd p.cwd)
    let tinfo :=
      maxByUpdated (bucket.filter (fun i => ¬ matched.contains i.session_id))
    match tinfo with
    | some info =>
      let rest := phase1 tracked ps (info.session_id :: matched)
      (mkRowPhase1 p info :: rest.1, rest.2.1, rest.2.2)
    | none =>
      let rest := phase1 tracked ps matched
      (rest.1, p :: rest.2.1, rest.2.2)

/-- Phase 2 of `scan_and_merge`: pair each remaining process with the head of
the remaining tracker list (`position(|_| true)` always picks index 0);
processes left over when the tracker list is exhausted are dropped. -/
def phase2 : List ProcessInfo → List SessionInfo → List MergedRow
  | [], _ => []
  | _ :: _, [] => []
  | p :: ps, info :: rest => mkRowPhase2 p info :: phase2 ps rest

/-- Stable insertion into a descending-by-`updated_at` list: the element goes
before the first entry that is not strictly greater, so earlier elements stay
before equal later ones (matching Rust's stable `sort_by`). -/
def insertByUpdatedDesc (x : SessionInfo) :
    List SessionInfo → List SessionInfo
  | [] => [x]
  | y :: ys =>
    if y.updated_at ≤ x.updated_at then x :: y :: ys
    else y :: insertByUpdatedDesc x ys

/-- `sort_by` descending on `updated_at` (stable, like Rust's `sort_by`). -/
def sortByUpdatedDesc : List SessionInfo → List SessionInfo
  | [] => []
  | x :: xs => insertByUpdatedDesc x (sortByUpdatedDesc xs)

/-- `scan_and_merge` over a process snapshot and the tracked sessions
(`get_active` output; `HashMap` iteration order is arbitrary, so both are
plain lists and theorems hold for every order). -/
def scan_and_merge (procs : List ProcessInfo) (tracked : List SessionInfo) :
    List MergedRow :=
  let ph1 := phase1 tracked procs []
  let unmatchedTrackers := sortByUpdatedDesc
    (tracked.filter
      (fun i => i.status ≠ .Ended ∧ ¬ ph1.2.2.contains i.session_id))
  ph1.1 ++ phase2 ph1.2.1 unmatchedTrackers

/-! ## Permission endpoints (`server.rs`) -/

/-- The decision response built by `api_permission_request` when a decision
arrives: `to_behavior`, and the original suggestions echoed only for
`AlwaysAllow`. -/
def permissionDecisionResponse (suggestions : Json)
    (d : PermissionDecisionKind) : Json :=
  Json.obj [("hookSpecificOutput", Json.obj
    [("hookEventName", Json.str "PermissionRequest"),
     ("decision", Json.obj
       [("behavior", Json.str d.to_behavior),
        ("updatedPermissions",
          if d = PermissionDecisionKind.AlwaysAllow then suggestions
          else Json.arr [])])])]

/-- The fixed deny response returned on timeout or channel drop. -/
def permissionDenyResponse : Json :=
  Json.obj [("hookSpecificOutput", Json.obj
    [("hookEventName", Json.str "PermissionRequest"),
     ("decision", Json.obj
       [("behavior", Json.str "deny"),
        ("updatedPermissions", Json.arr [])])])]

/-- The timeout / channel-drop path of `api_permission_request`: the request
was registered, no decision arrived within `permission_timeout_secs` (or the
sender was dropped), so the store entry is removed and the deny response is
returned. -/
def apiPermissionRequestTimeout (perm : PermissionStore)
    (req : PermissionRequest) : Json × PermissionStore :=
  let perm1 := perm.register req
  let perm2 := perm1.remove req.id
  (permissionDenyResponse, perm2)

/-- One SSE broadcast frame. -/
structure Broadcast where
  kind : String
  payload : Json

/-- `api_permission_respond` — look up the session id in the pending list,
forward the decision, and on success update the session and broadcast. -/
def apiPermissionRespond (perm : PermissionStore)
    (tracker : List (String × SessionInfo)) (id : String)
    (d : PermissionDecisionKind) (now : ℚ) :
    Json × PermissionStore × List (String × SessionInfo) × List Broadcast :=
  let sessionId :=
    (perm.get_pending.find? (fun r => r.id == id)).map (fun r => r.session_id)
  let r := perm.respond id d
  let ok := r.1
  let perm1 := r.2
  if ok then
    match sessionId with
    | some sid =>
      let newStatus :=
        match d with
        | .Allow | .AlwaysAllow => SessionStatus.Active
        | .Deny => SessionStatus.Waiting
      let tracker1 := SessionTracker.update tracker sid
        { status := some newStatus
          notification_type := some ""
          notification_message := some "" } now
      (Json.obj [("ok", Json.bool ok)], perm1, tracker1,
        [⟨"activity", Json.obj
          [("event", Json.str "permission_resolved"),
           ("session_id", Json.str sid)]⟩])
    | none => (Json.obj [("ok", Json.bool ok)], perm1, tracker, [])
  else
    (Json.obj [("ok", Json.bool ok)], perm1, tracker, [])

/-- Accessor: the `decision` object of a permission response. -/
def responseDecision (r : Json) : Option Json :=
  (r.getField "hookSpecificOutput").bind (fun h => h.getField "decision")

/-- Accessor: the `behavior` field of a permission response. -/
def responseBehavior (r : Json) : Option Json :=
  (responseDecision r).bind (fun d => d.getField "behavior")

/-- Accessor: the `updatedPermissions` field of a permission response. -/
def responseUpdatedPermissions (r : Json) : Option Json :=
  (responseDecision r).bind (fun d => d.getField "updatedPermissions")

/-! ## Hook relay daemon (`hooks/src/daemon.rs`) -/

/-- The reply line written on a JSON parse failure. -/
def parseErrorReply : String := "\x7b\"ok\":false,\"error\":\"parse\"\x7d"

/-- The reply line written when a light-event upstream call errors. -/
def okFalseReply : String := "\x7b\"ok\":false\x7d"

/-- `data.get("event").and_then(as_str).unwrap_or("")`. -/
def daemonEventOf (data : Json) : String :=
  ((data.getField "event").bind Json.asStr).getD ""

/-- The structured payload the daemon builds for `pre_tool`. -/
def preToolPayload (data : Json) : Json :=
  let tool_name :=
    (((data.getField "tool_name").orElse
        (fun _ => data.getField "toolName")).bind Json.asStr).getD ""
  let tool_input :=
    ((data.getField "tool_input").orElse
        (fun _ => data.getField "input")).getD (Json.obj [])
  let session_id :=
    (((data.getField "session_id").orElse
        (fun _ => data.getField "sessionId")).bind Json.asStr).getD ""
  let cwd := ((data.getField "cwd").bind Json.asStr).getD ""
  Json.obj
    [("session_id", Json.str session_id),
     ("cwd", Json.str cwd),
     ("tool_name", Json.str tool_name),
     ("tool_input", tool_input),
     ("raw", data)]

/-- One daemon connection: `input` is the received line after JSON parsing
(`none` = parse failure), `upstream route payload` is the HTTP POST to the
core server (`none` = the call errored). The result is the reply line
written back (the trailing newline added by `writeln!` is not part of it). -/
def handleConn (input : Option Json)
    (upstream : String → Json → Option String) : String :=
  match input with
  | none => parseErrorReply
  | some data =>
    let event := daemonEventOf data
    if event = "user_prompt" then
      (upstream ("/api/hook?event=" ++ event) data).getD okFalseReply
    else if event = "pre_tool" then
      (upstream "/api/pre-tool-check" (preToolPayload data)).getD ""
    else if event = "permission_request" then
      (upstream "/api/permission-request" data).getD ""
    else
      (upstream "/api/signal" data).getD okFalseReply

/-! ## Theorems -/

/-- C1: a `/api/permission-request` call that times out (or whose decision
channel is dropped) responds with behavior `"deny"` and empty
`updatedPermissions`, and afterwards the permission store's pending list no
longer contains the request's id (neither a request entry nor a live decision
channel remains). -/
theorem permission_timeout_denies_and_removes (perm : PermissionStore)
    (req : PermissionRequest) :
    responseBehavior (apiPermissionRequestTimeout perm req).1 =
      some (Json.str "deny") ∧
    responseUpdatedPermissions (apiPermissionRequestTimeout perm req).1 =
      some (Json.arr []) ∧
    lookupA req.id (apiPermissionRequestTimeout perm req).2.requests = none ∧
    req.id ∉ (apiPermissionRequestTimeout perm req).2.senders := by
  refine ⟨rfl, rfl, ?_, ?_⟩
  · simp [apiPermissionRequestTimeout, PermissionStore.remove,
      lookupA_removeKeyA_self]
  · simp [apiPermissionRequestTimeout, PermissionStore.remove, List.mem_filter]

/-- C2: the permission decision response maps `Allow` and `AlwaysAllow` to
behavior `"approve"` and `Deny` to `"deny"`, and `updatedPermissions` echoes
the original `permission_suggestions` exactly for `AlwaysAllow` and is the
empty array otherwise. -/
theorem permission_decision_mapping (suggestions : Json)
    (d : PermissionDecisionKind) :
    responseBehavior (permissionDecisionResponse suggestions d) =
      some (Json.str
        (match d with
         | .Deny => "deny"
         | .Allow | .AlwaysAllow => "approve")) ∧
    responseUpdatedPermissions (permissionDecisionResponse suggestions d) =
      some (if d = PermissionDecisionKind.AlwaysAllow then suggestions
            else Json.arr []) := by
  cases d <;> exact ⟨rfl, rfl⟩

/-- C10: responding to an id with no pending permission request (no stored
request, and hence no live decision channel) returns `false` from the store,
replies `{ok:false}`, updates no session, broadcasts nothing, and leaves the
permission store unchanged. -/
theorem respond_unknown_id (perm : PermissionStore)
    (tracker : List (String × SessionInfo)) (id : String)
    (d : PermissionDecisionKind) (now : ℚ)
    (hpend : ∀ r ∈ perm.get_pending, r.id ≠ id)
    (hreq : lookupA id perm.requests = none)
    (hsend : id ∉ perm.senders) :
    (perm.respond id d).1 = false ∧
    apiPermissionRespond perm tracker id d now =
      (Json.obj [("ok", Json.bool false)], perm, tracker, []) := by
  have hrespond : perm.respond id d = (false, perm) := by
    unfold PermissionStore.respond
    rw [removeKeyA_of_lookupA_none id perm.requests hreq]
    have hc : perm.senders.contains id = false := by
      simpa using hsend
    simp [hc, hsend]
  refine ⟨by rw [hrespond], ?_⟩
  have hfind : perm.get_pending.find? (fun r => r.id == id) = none := by
    rw [List.find?_eq_none]
    intro r hr
    simpa using hpend r hr
  unfold apiPermissionRespond
  rw [hfind, hrespond]
  simp

/-- C10 witness: a concrete store with one pending request and an unrelated
id. -/
theorem respond_unknown_id_witness :
    (∀ r ∈ (PermissionStore.mk
        [("a", PermissionRequest.mk "a" "S1" "C:/p" "run" (Json.obj [])
          (Json.arr []) 1 600)] ["a"] []).get_pending, r.id ≠ "b") ∧
    lookupA "b" (PermissionStore.mk
        [("a", PermissionRequest.mk "a" "S1" "C:/p" "run" (Json.obj [])
          (Json.arr []) 1 600)] ["a"] []).requests = none ∧
    "b" ∉ (PermissionStore.mk
        [("a", PermissionRequest.mk "a" "S1" "C:/p" "run" (Json.obj [])
          (Json.arr []) 1 600)] ["a"] []).senders ∧
    ((PermissionStore.mk
        [("a", PermissionRequest.mk "a" "S1" "C:/p" "run" (Json.obj [])
          (Json.arr []) 1 600)] ["a"] []).respond "b"
        PermissionDecisionKind.Deny).1 = false := by
  refine ⟨?_, ?_, ?_, ?_⟩
  · intro r hr
    simp [PermissionStore.get_pending, lookupA] at hr
    simp [hr]
  · rfl
  · simp
  · exact (respond_unknown_id
      (PermissionStore.mk
        [("a", PermissionRequest.mk "a" "S1" "C:/p" "run" (Json.obj [])
          (Json.arr []) 1 600)] ["a"] [])
      [] "b" PermissionDecisionKind.Deny 0
      (by intro r hr; simp [PermissionStore.get_pending, lookupA] at hr; simp [hr])
      rfl (by simp)).1

theorem lookupA_update_self (m : List (String × SessionInfo)) (sid : String)
    (u : SessionUpdate) (now : ℚ) :
    lookupA sid (SessionTracker.update m sid u now) =
      some (applySessionUpdate ((lookupA sid m).getD (freshSessionInfo sid now))
        u now) := by
  unfold SessionTracker.update
  cases h : lookupA sid m with
  | some e => rw [lookupA_setA_self]; simp [h]
  | none => rw [lookupA_append_single sid _ m h]; simp [h]

/-- C6: after `clear_all`, `get_events(0)` is empty, and the rewritten
backing file holds exactly one line per previously cached event, each parsing
to an event with `cleared = true`. -/
theorem clear_all_empties_and_marks (st : EventStoreState) (newMtime : ℚ) :
    EventStore.get_events (EventStore.clear_all st newMtime) 0 = [] ∧
    (EventStore.clear_all st newMtime).file =
      st.cacheEvents.map (fun e => { e with cleared := true }) ∧
    (EventStore.clear_all st newMtime).file.all (fun e => e.cleared) = true ∧
    (EventStore.clear_all st newMtime).file.length = st.cacheEvents.length := by
  refine ⟨?_, rfl, ?_, by simp [EventStore.clear_all]⟩
  · unfold EventStore.get_events EventStore.refresh_cache EventStore.clear_all
    simp
  · unfold EventStore.clear_all
    simp

/-- C7: at `SessionTracker` construction, a snapshot session whose status is
`Active`, `Waiting` or `Stopped` and whose `updated_at` is more than 300 s
before the load time is demoted to `Idle` with `updated_at` unchanged; every
other session is loaded unchanged. -/
theorem startup_stale_demotion (now : ℚ)
    (snapshot : List (String × SessionInfo)) (k : String) (info : SessionInfo)
    (hmem : (k, info) ∈ snapshot) :
    ((now - info.updated_at > 300 ∧
        (info.status = .Active ∨ info.status = .Waiting ∨
          info.status = .Stopped)) →
      ((k, { info with status := SessionStatus.Idle }) ∈
          SessionTracker.new now snapshot ∧
        SessionInfo.updated_at { info with status := SessionStatus.Idle } =
          info.updated_at)) ∧
    (¬ (now - info.updated_at > 300 ∧
        (info.status = .Active ∨ info.status = .Waiting ∨
          info.status = .Stopped)) →
      (k, info) ∈ SessionTracker.new now snapshot) := by
  constructor
  · intro h
    refine ⟨?_, rfl⟩
    have hd : demoteStale now info = { info with status := SessionStatus.Idle } := by
      unfold demoteStale
      rw [if_pos h]
    exact List.mem_map.mpr ⟨(k, info), hmem, by rw [hd]⟩
  · intro h
    have hd : demoteStale now info = info := by
      unfold demoteStale
      rw [if_neg h]
    exact List.mem_map.mpr ⟨(k, info), hmem, by rw [hd]⟩

/-- C7 witness: a stale `Active` session demoted at load, concretely. -/
theorem startup_stale_demotion_witness :
    (("S1", SessionInfo.mk "S1" "C:/p" none SessionStatus.Active 0 0 none
        none none none none) ∈
      [("S1", SessionInfo.mk "S1" "C:/p" none SessionStatus.Active 0 0 none
        none none none none)]) ∧
    ((1000 : ℚ) - 0 > 300 ∧
      (SessionStatus.Active = SessionStatus.Active ∨
        SessionStatus.Active = SessionStatus.Waiting ∨
        SessionStatus.Active = SessionStatus.Stopped)) ∧
    ("S1", SessionInfo.mk "S1" "C:/p" none SessionStatus.Idle 0 0 none
        none none none none) ∈
      SessionTracker.new 1000
        [("S1", SessionInfo.mk "S1" "C:/p" none SessionStatus.Active 0 0 none
          none none none none)] := by
  refine ⟨by simp, ⟨by norm_num, Or.inl rfl⟩, ?_⟩
  exact ((startup_stale_demotion 1000
    [("S1", SessionInfo.mk "S1" "C:/p" none SessionStatus.Active 0 0 none
      none none none none)] "S1"
    (SessionInfo.mk "S1" "C:/p" none SessionStatus.Active 0 0 none
      none none none none) (by simp)).1
    ⟨by norm_num, Or.inl rfl⟩).1

/-- C9: `SessionTracker::update` on an absent session id inserts a fresh
entry whose `started_at` and `updated_at` equal the call time, whose status
is the update's status if set and `Unknown` otherwise, and whose remaining
fields come from the update's `Some` fields with empty/`None` defaults;
consequently an `/api/signal` stop for a never-registered session creates a
tracked session rather than being ignored. -/
theorem update_absent_inserts (m : List (String × SessionInfo)) (sid : String)
    (u : SessionUpdate) (now : ℚ) (h : lookupA sid m = none) (hs : sid ≠ "") :
    lookupA sid (SessionTracker.update m sid u now) = some
      { session_id := sid
        cwd := u.cwd.getD ""
        model := none
        status := u.status.getD .Unknown
        started_at := now
        updated_at := now
        last_message := u.last_message
        notification_type := u.notification_type
        notification_message := u.notification_message
        agent_pid := u.agent_pid
        parent_session_id := u.parent_session_id } ∧
    ∀ (events : List Event) (dd : List (String × ℚ)) (p : SignalPayload)
      (rand6 : String),
      p.event = .Stop → p.session_id = sid →
      (lookupA sid ((apiSignal ⟨m, events, dd⟩ p now rand6).tracker)).isSome := by
  constructor
  · rw [lookupA_update_self, h]
    congr 1
    obtain ⟨us, uc, ul, unt, unm, ua, up⟩ := u
    cases us <;> cases uc <;> cases ul <;> cases unt <;> cases unm <;>
      cases ua <;> cases up <;> rfl
  · intro events dd p rand6 hev hpsid
    have htr : (apiSignal ⟨m, events, dd⟩ p now rand6).tracker =
        signalSessionUpdate m p now := rfl
    rw [htr]
    unfold signalSessionUpdate
    rw [hev, hpsid]
    simp [hs, lookupA_update_self]

/-- C9 witness: updating an empty tracker inserts the session. -/
theorem update_absent_inserts_witness :
    lookupA "S2" ([] : List (String × SessionInfo)) = none ∧
    ("S2" : String) ≠ "" ∧
    (lookupA "S2" (SessionTracker.update [] "S2"
      { status := some SessionStatus.Waiting } 7)).isSome := by
  refine ⟨rfl, by decide, ?_⟩
  rw [(update_absent_inserts [] "S2" { status := some SessionStatus.Waiting }
    7 rfl (by decide)).1]
  rfl

/-- C4: an accepted `/api/signal` stop with non-empty session id, cwd `C` and
non-empty `last_assistant_message` of at most 300 characters sets the session
to `Waiting` with that last message and cleared notification fields, and
appends exactly one event of level 2 whose message is `"[Done] "`, the first
at-most-8 characters of the session id, a newline, `C`, a newline, and the
message. -/
theorem signal_stop_event_and_session (s : ServerState) (p : SignalPayload)
    (now : ℚ) (rand6 : String)
    (hev : p.event = .Stop) (hsid : p.session_id ≠ "")
    (hmsg : p.last_assistant_message ≠ "")
    (hlen : p.last_assistant_message.length ≤ 300) :
    (∃ e, lookupA p.session_id ((apiSignal s p now rand6).tracker) = some e ∧
       e.status = .Waiting ∧
       e.last_message = some p.last_assistant_message ∧
       e.notification_type = some "" ∧ e.notification_message = some "") ∧
    (∃ evt, (apiSignal s p now rand6).events = s.events ++ [evt] ∧
       evt.level = 2 ∧
       evt.message = "[Done] " ++ shortSidOf p.session_id ++ "\n" ++ p.cwd ++
         "\n" ++ p.last_assistant_message) := by
  constructor
  · have htr : (apiSignal s p now rand6).tracker =
        signalSessionUpdate s.tracker p now := rfl
    rw [htr]
    unfold signalSessionUpdate
    rw [if_neg hsid, hev]
    exact ⟨_, lookupA_update_self _ _ _ _,
      by simp [applySessionUpdate],
      by simp [applySessionUpdate, hmsg],
      by simp [applySessionUpdate],
      by simp [applySessionUpdate]⟩
  · refine ⟨_, rfl, ?_, ?_⟩
    · show eventLevel p.event = 2
      rw [hev]
      rfl
    · show formatEventMessage p.event (shortSidOf p.session_id) p.cwd
        p.notification_type p.message p.last_assistant_message p.model = _
      rw [hev]
      unfold formatEventMessage
      rw [if_neg (by omega : ¬ p.last_assistant_message.length > 300)]

/-- C4 witness: the literal scenario from the spec, at concrete state. -/
theorem signal_stop_event_and_session_witness :
    (("S2" : String) ≠ "" ∧ ("done." : String) ≠ "" ∧
      ("done." : String).length ≤ 300) ∧
    ((∃ e, lookupA "S2" ((apiSignal ⟨[], [], []⟩
        (SignalPayload.mk HookEvent.Stop "S2" "C:/q" "" "" "done." "" none
          none) 10 "abcdef").tracker) = some e ∧
        e.status = .Waiting ∧ e.last_message = some "done." ∧
        e.notification_type = some "" ∧ e.notification_message = some "") ∧
      (∃ evt, (apiSignal ⟨[], [], []⟩
        (SignalPayload.mk HookEvent.Stop "S2" "C:/q" "" "" "done." "" none
          none) 10 "abcdef").events = [] ++ [evt] ∧ evt.level = 2 ∧
        evt.message = "[Done] " ++ shortSidOf "S2" ++ "\n" ++ "C:/q" ++
          "\n" ++ "done.")) := by
  refine ⟨⟨by decide, by decide, by decide⟩, ?_⟩
  exact signal_stop_event_and_session ⟨[], [], []⟩
    (SignalPayload.mk HookEvent.Stop "S2" "C:/q" "" "" "done." "" none none)
    10 "abcdef" rfl (by decide) (by decide) (by decide)

theorem apiHook_hit (s : ServerState) (ev : HookEvent) (sid cwd : String)
    (now last : ℚ) (hsid : sid ≠ "")
    (hl : lookupA (dedupKey sid ev) s.dedup = some last)
    (hlt : now - last < 1/2) :
    apiHook s (some ev) sid cwd now = (.okDedup, s) := by
  have hlt2 : now - last < 2⁻¹ := by rw [← one_div]; exact hlt
  unfold apiHook
  simp [hsid, hl, hlt2]

theorem apiHook_fresh (s : ServerState) (ev : HookEvent) (sid cwd : String)
    (now : ℚ) (hsid : sid ≠ "")
    (hl : lookupA (dedupKey sid ev) s.dedup = none) :
    (apiHook s (some ev) sid cwd now).1 = .ok ∧
    lookupA (dedupKey sid ev) (apiHook s (some ev) sid cwd now).2.dedup =
      some now := by
  unfold apiHook
  simp only [hl, hsid, ne_eq, not_false_eq_true, if_true, if_false,
    Bool.false_eq_true]
  constructor
  · trivial
  · split <;> simp [lookupA_insertKeyA_self]

theorem apiHook_stale (s : ServerState) (ev : HookEvent) (sid cwd : String)
    (now last : ℚ) (hsid : sid ≠ "")
    (hl : lookupA (dedupKey sid ev) s.dedup = some last)
    (hge : ¬ (now - last < 1/2)) :
    (apiHook s (some ev) sid cwd now).1 = .ok ∧
    lookupA (dedupKey sid ev) (apiHook s (some ev) sid cwd now).2.dedup =
      some now := by
  unfold apiHook
  simp only [hl, hsid, hge, ne_eq, not_false_eq_true, if_true, decide_eq_true_eq,
    decide_eq_false hge, if_false, Bool.false_eq_true]
  constructor
  · trivial
  · split <;> simp [lookupA_insertKeyA_self]

theorem processedTimes_spec (ev : HookEvent) (sid cwd : String)
    (hsid : sid ≠ "") :
    ∀ (ts : List ℚ) (s : ServerState) (m : ℚ),
      lookupA (dedupKey sid ev) s.dedup = some m →
      ts.Pairwise (· ≤ ·) →
      (∀ x ∈ ts, m ≤ x) →
      (processedTimes s (some ev) sid cwd ts).Pairwise
          (fun a b => a + 1/2 ≤ b) ∧
      (∀ x ∈ processedTimes s (some ev) sid cwd ts, m + 1/2 ≤ x) := by
  intro ts
  induction ts with
  | nil => intro s m _ _ _; simp [processedTimes]
  | cons t ts2 ih =>
    intro s m hm hpw hmle
    have hcons := List.pairwise_cons.mp hpw
    by_cases hlt : t - m < 1/2
    · have hstep : apiHook s (some ev) sid cwd t = (.okDedup, s) :=
        apiHook_hit s ev sid cwd t m hsid hm hlt
      have heq : processedTimes s (some ev) sid cwd (t :: ts2) =
          processedTimes s (some ev) sid cwd ts2 := by
        simp [processedTimes, hstep]
      rw [heq]
      exact ih s m hm hcons.2 (fun x hx => hmle x (List.mem_cons_of_mem t hx))
    · have h1 := apiHook_stale s ev sid cwd t m hsid hm hlt
      have heq : processedTimes s (some ev) sid cwd (t :: ts2) =
          t :: processedTimes (apiHook s (some ev) sid cwd t).2 (some ev)
            sid cwd ts2 := by
        simp [processedTimes, h1.1]
      rw [heq]
      have hrest := ih (apiHook s (some ev) sid cwd t).2 t h1.2 hcons.2
        (fun x hx => hcons.1 x hx)
      have hmt : m ≤ t := hmle t (List.mem_cons_self t ts2)
      constructor
      · exact List.pairwise_cons.mpr ⟨fun b hb => hrest.2 b hb, hrest.1⟩
      · intro x hx
        rcases List.mem_cons.mp hx with hx1 | hx2
        · subst hx1; linarith
        · have := hrest.2 x hx2; linarith

/-- C5: starting from a state with no dedup entry for the pair, the calls of
any time-ordered `/api/hook` trace for one `(session_id, event)` pair that
are actually processed are at least 500 ms apart (so no 500 ms window holds
two of them); and any call that hits the dedup window returns
`{ok:true, dedup:true}` and leaves the whole server state — in particular
the session tracker — unchanged. -/
theorem hook_dedup_window (ev : HookEvent) (sid cwd : String)
    (s : ServerState) (ts : List ℚ) (hsid : sid ≠ "")
    (hfresh : lookupA (dedupKey sid ev) s.dedup = none)
    (hpw : ts.Pairwise (· ≤ ·)) :
    (processedTimes s (some ev) sid cwd ts).Pairwise
        (fun a b => a + 1/2 ≤ b) ∧
    ∀ (s1 : ServerState) (now last : ℚ),
      lookupA (dedupKey sid ev) s1.dedup = some last → now - last < 1/2 →
      apiHook s1 (some ev) sid cwd now = (.okDedup, s1) := by
  refine ⟨?_, fun s1 now last hl hlt =>
    apiHook_hit s1 ev sid cwd now last hsid hl hlt⟩
  cases ts with
  | nil => simp [processedTimes]
  | cons t ts2 =>
    have h1 := apiHook_fresh s ev sid cwd t hsid hfresh
    have hcons := List.pairwise_cons.mp hpw
    have heq : processedTimes s (some ev) sid cwd (t :: ts2) =
        t :: processedTimes (apiHook s (some ev) sid cwd t).2 (some ev)
          sid cwd ts2 := by
      simp [processedTimes, h1.1]
    rw [heq]
    have hrest := processedTimes_spec ev sid cwd hsid ts2
      (apiHook s (some ev) sid cwd t).2 t h1.2 hcons.2
      (fun x hx => hcons.1 x hx)
    exact List.pairwise_cons.mpr ⟨fun b hb => hrest.2 b hb, hrest.1⟩

/-- C5 witness: two `user_prompt` calls for `S1`, one second apart, from a
fresh state. -/
theorem hook_dedup_window_witness :
    (("S1" : String) ≠ "" ∧
      lookupA (dedupKey "S1" HookEvent.UserPrompt)
        (ServerState.mk [] [] []).dedup = none ∧
      ([0, 1] : List ℚ).Pairwise (· ≤ ·)) ∧
    (processedTimes ⟨[], [], []⟩ (some HookEvent.UserPrompt) "S1" "C:/p"
        [0, 1]).Pairwise (fun a b => a + 1/2 ≤ b) := by
  refine ⟨⟨by decide, rfl, by decide⟩, ?_⟩
  exact (hook_dedup_window HookEvent.UserPrompt "S1" "C:/p" ⟨[], [], []⟩
    [0, 1] (by decide) rfl (by decide)).1

theorem maxByUpdatedGo_mem (a : SessionInfo) (l : List SessionInfo) :
    maxByUpdatedGo a l = a ∨ maxByUpdatedGo a l ∈ l := by
  induction l generalizing a with
  | nil => left; rfl
  | cons x xs ih =>
    rw [maxByUpdatedGo]
    rcases ih (if a.updated_at ≤ x.updated_at then x else a) with h | h
    · rw [h]
      split
      · right; exact List.mem_cons_self x xs
      · left; rfl
    · right; exact List.mem_cons_of_mem x h

theorem maxByUpdated_mem (l : List SessionInfo) (i : SessionInfo)
    (h : maxByUpdated l = some i) : i ∈ l := by
  cases l with
  | nil => cases h
  | cons x xs =>
    rw [maxByUpdated] at h
    have hx := Option.some.inj h
    rcases maxByUpdatedGo_mem x xs with h1 | h1
    · rw [← hx, h1]; exact List.mem_cons_self x xs
    · rw [← hx]; exact List.mem_cons_of_mem x h1

theorem cwdBucket_mem (tracked : List SessionInfo) (key : String)
    (i : SessionInfo) (h : i ∈ cwdBucket tracked key) :
    i ∈ tracked ∧ i.status ≠ .Ended := by
  have h1 := List.mem_filter.mp h
  refine ⟨h1.1, ?_⟩
  have h2 := of_decide_eq_true h1.2
  exact h2.1

theorem phase1_spec (tracked : List SessionInfo) :
    ∀ (procs : List ProcessInfo) (matched : List String),
      (∀ row ∈ (phase1 tracked procs matched).1,
        ∃ p ∈ procs, ∃ i ∈ tracked, i.status ≠ .Ended ∧
          row = mkRowPhase1 p i) ∧
      (∀ q ∈ (phase1 tracked procs matched).2.1, q ∈ procs) := by
  intro procs
  induction procs with
  | nil =>
    intro matched
    constructor <;> intro r hr <;> simp [phase1] at hr
  | cons p ps ih =>
    intro matched
    cases htinfo : maxByUpdated
        ((cwdBucket tracked (normalizeCwd p.cwd)).filter
          (fun i => ¬ matched.contains i.session_id)) with
    | some info =>
      have hinfo : info ∈ tracked ∧ info.status ≠ .Ended := by
        have h1 := maxByUpdated_mem _ _ htinfo
        exact cwdBucket_mem tracked _ info (List.mem_filter.mp h1).1
      constructor
      · intro row hrow
        rw [phase1, htinfo] at hrow
        rcases List.mem_cons.mp hrow with hr1 | hr2
        · exact ⟨p, List.mem_cons_self p ps, info, hinfo.1, hinfo.2, hr1⟩
        · obtain ⟨q, hq, j, hj, hjne, hrw⟩ :=
            (ih (info.session_id :: matched)).1 row hr2
          exact ⟨q, List.mem_cons_of_mem p hq, j, hj, hjne, hrw⟩
      · intro q hq
        rw [phase1, htinfo] at hq
        exact List.mem_cons_of_mem p ((ih (info.session_id :: matched)).2 q hq)
    | none =>
      constructor
      · intro row hrow
        rw [phase1, htinfo] at hrow
        obtain ⟨q, hq, j, hj, hjne, hrw⟩ := (ih matched).1 row hrow
        exact ⟨q, List.mem_cons_of_mem p hq, j, hj, hjne, hrw⟩
      · intro q hq
        rw [phase1, htinfo] at hq
        rcases List.mem_cons.mp hq with hq1 | hq2
        · rw [hq1]; exact List.mem_cons_self p ps
        · exact List.mem_cons_of_mem p ((ih matched).2 q hq2)

theorem phase2_spec :
    ∀ (ps : List ProcessInfo) (infos : List SessionInfo),
      ∀ row ∈ phase2 ps infos, ∃ p ∈ ps, ∃ i ∈ infos, row = mkRowPhase2 p i := by
  intro ps
  induction ps with
  | nil => intro infos row hrow; simp [phase2] at hrow
  | cons p ps2 ih =>
    intro infos row hrow
    cases infos with
    | nil => simp [phase2] at hrow
    | cons i rest =>
      rw [phase2] at hrow
      rcases List.mem_cons.mp hrow with hr1 | hr2
      · exact ⟨p, List.mem_cons_self p ps2, i, List.mem_cons_self i rest, hr1⟩
      · obtain ⟨q, hq, j, hj, hrw⟩ := ih rest row hr2
        exact ⟨q, List.mem_cons_of_mem p hq, j, List.mem_cons_of_mem i hj, hrw⟩

theorem phase2_nil_trackers (ps : List ProcessInfo) : phase2 ps [] = [] := by
  cases ps <;> rfl

theorem mem_insertByUpdatedDesc (x a : SessionInfo) (l : List SessionInfo) :
    a ∈ insertByUpdatedDesc x l ↔ a = x ∨ a ∈ l := by
  induction l with
  | nil => simp [insertByUpdatedDesc]
  | cons y ys ih =>
    rw [insertByUpdatedDesc]
    split
    · simp [List.mem_cons]
    · simp only [List.mem_cons, ih]
      tauto

theorem mem_sortByUpdatedDesc (a : SessionInfo) (l : List SessionInfo) :
    a ∈ sortByUpdatedDesc l ↔ a ∈ l := by
  induction l with
  | nil => simp [sortByUpdatedDesc]
  | cons x xs ih =>
    rw [sortByUpdatedDesc, mem_insertByUpdatedDesc]
    simp [ih]

theorem cwdBucket_nil_of_all_ended (tracked : List SessionInfo)
    (h : ∀ i ∈ tracked, i.status = .Ended) (key : String) :
    cwdBucket tracked key = [] := by
  unfold cwdBucket
  rw [List.filter_eq_nil_iff]
  intro i hi
  simp [h i hi]

theorem phase1_rows_nil_of_all_ended (tracked : List SessionInfo)
    (h : ∀ i ∈ tracked, i.status = .Ended) :
    ∀ (procs : List ProcessInfo) (matched : List String),
      (phase1 tracked procs matched).1 = [] := by
  intro procs
  induction procs with
  | nil => intro matched; rfl
  | cons p ps ih =>
    intro matched
    have hb := cwdBucket_nil_of_all_ended tracked h (normalizeCwd p.cwd)
    rw [phase1, hb]
    simp only [List.filter_nil]
    rw [maxByUpdated]
    exact ih matched

/-- C3: every `scan_and_merge` row carries the session id of a tracked
non-`Ended` session and the pid of a scanned process (so `Ended` sessions,
tracker entries with no matching process, and processes with no tracker pair
never appear); in particular, when every tracked session is `Ended` the
merged list is empty. -/
theorem scan_and_merge_spec (procs : List ProcessInfo)
    (tracked : List SessionInfo) :
    (∀ row ∈ scan_and_merge procs tracked,
      (∃ i ∈ tracked, row.session_id = i.session_id ∧ i.status ≠ .Ended) ∧
      (∃ p ∈ procs, row.pid = p.pid)) ∧
    ((∀ i ∈ tracked, i.status = .Ended) → scan_and_merge procs tracked = []) := by
  constructor
  · intro row hrow
    unfold scan_and_merge at hrow
    rcases List.mem_append.mp hrow with h1 | h2
    · obtain ⟨p, hp, i, hi, hne, hrw⟩ := (phase1_spec tracked procs []).1 row h1
      subst hrw
      exact ⟨⟨i, hi, rfl, hne⟩, ⟨p, hp, rfl⟩⟩
    · obtain ⟨p, hp, i, hi, hrw⟩ := phase2_spec _ _ row h2
      subst hrw
      have hp2 := (phase1_spec tracked procs []).2 p hp
      have hi2 := (mem_sortByUpdatedDesc i _).mp hi
      have hi3 := List.mem_filter.mp hi2
      refine ⟨⟨i, hi3.1, rfl, ?_⟩, ⟨p, hp2, rfl⟩⟩
      exact (of_decide_eq_true hi3.2).1
  · intro hall
    show (let ph1 := phase1 tracked procs [];
      let unmatchedTrackers := sortByUpdatedDesc
        (tracked.filter
          (fun i => i.status ≠ .Ended ∧ ¬ ph1.2.2.contains i.session_id));
      ph1.1 ++ phase2 ph1.2.1 unmatchedTrackers) = []
    simp only []
    rw [phase1_rows_nil_of_all_ended tracked hall procs []]
    have hf : tracked.filter
        (fun i => i.status ≠ .Ended ∧
          ¬ (phase1 tracked procs []).2.2.contains i.session_id) = [] := by
      rw [List.filter_eq_nil_iff]
      intro i hi
      simp [hall i hi]
    rw [hf]
    rw [List.nil_append]
    exact phase2_nil_trackers _

/-- C3 witness: a CWD-matched process yields a row bound to its tracked
session, and an all-`Ended` tracker yields an empty merged list. -/
theorem scan_and_merge_spec_witness :
    ((mkRowPhase1 (ProcessInfo.mk 4242 "claude.exe" "claude" "C:/p" 3 100)
        (SessionInfo.mk "S1" "C:/p" none SessionStatus.Active 0 5 none none
          none none none)) ∈
      scan_and_merge [ProcessInfo.mk 4242 "claude.exe" "claude" "C:/p" 3 100]
        [SessionInfo.mk "S1" "C:/p" none SessionStatus.Active 0 5 none none
          none none none]) ∧
    (∃ i ∈ [SessionInfo.mk "S1" "C:/p" none SessionStatus.Active 0 5 none
        none none none none],
      (mkRowPhase1 (ProcessInfo.mk 4242 "claude.exe" "claude" "C:/p" 3 100)
        (SessionInfo.mk "S1" "C:/p" none SessionStatus.Active 0 5 none none
          none none none)).session_id = i.session_id ∧
      i.status ≠ SessionStatus.Ended) ∧
    scan_and_merge [ProcessInfo.mk 4242 "claude.exe" "claude" "C:/p" 3 100]
      [SessionInfo.mk "S9" "C:/p" none SessionStatus.Ended 0 5 none none
        none none none] = [] := by
  refine ⟨by decide, ?_, ?_⟩
  · exact ((scan_and_merge_spec
      [ProcessInfo.mk 4242 "claude.exe" "claude" "C:/p" 3 100]
      [SessionInfo.mk "S1" "C:/p" none SessionStatus.Active 0 5 none none
        none none none]).1 _ (by decide)).1
  · exact (scan_and_merge_spec
      [ProcessInfo.mk 4242 "claude.exe" "claude" "C:/p" 3 100]
      [SessionInfo.mk "S9" "C:/p" none SessionStatus.Ended 0 5 none none
        none none none]).2 (by decide)

/-- C8 counterexample: a `user_prompt` connection whose upstream HTTP call
errors gets the reply line `{"ok":false}` — a JSON object with no `error`
field at all (the claim requires `{"ok":false,"error":"…"}` for light
events). -/
theorem daemon_light_error_reply_has_no_error_field :
    handleConn
      (some (Json.obj [("event", Json.str "user_prompt"),
        ("session_id", Json.str "S1"), ("cwd", Json.str "C:/p")]))
      (fun _ _ => none) = okFalseReply ∧
    ¬ List.IsInfix "error".toList okFalseReply.toList := by
  exact ⟨rfl, by decide⟩

/-- C8 (amended): a line that fails to parse as JSON gets the reply
`{"ok":false,"error":"parse"}` whatever the intended event was; an upstream
HTTP error yields the reply `{"ok":false}` (no `error` field) for light
events, and the empty string for `pre_tool` and `permission_request`. -/
theorem daemon_error_replies (upstream : String → Json → Option String)
    (hup : ∀ r p, upstream r p = none) (data : Json) :
    handleConn none upstream = parseErrorReply ∧
    ((daemonEventOf data = "pre_tool" ∨
        daemonEventOf data = "permission_request") →
      handleConn (some data) upstream = "") ∧
    (¬ (daemonEventOf data = "pre_tool" ∨
        daemonEventOf data = "permission_request") →
      handleConn (some data) upstream = okFalseReply) := by
  refine ⟨rfl, ?_, ?_⟩
  · intro h
    rcases h with h | h <;> simp [handleConn, h, hup]
  · intro h
    push_neg at h
    by_cases h1 : daemonEventOf data = "user_prompt"
    · simp [handleConn, h1, hup]
    · simp [handleConn, h1, h.1, h.2, hup]

/-- C8 witness: concrete parse failure and a concrete failing upstream for a
`stop` (light) event. -/
theorem daemon_error_replies_witness :
    (∀ (r : String) (p : Json),
      (fun (_ : String) (_ : Json) => (none : Option String)) r p = none) ∧
    handleConn none (fun _ _ => none) = parseErrorReply ∧
    handleConn (some (Json.obj [("event", Json.str "stop")]))
      (fun _ _ => none) = okFalseReply := by
  refine ⟨fun r p => rfl, ?_, ?_⟩
  · exact (daemon_error_replies (fun _ _ => none) (fun r p => rfl)
      (Json.obj [("event", Json.str "stop")])).1
  · exact (daemon_error_replies (fun _ _ => none) (fun r p => rfl)
      (Json.obj [("event", Json.str "stop")])).2.2 (by decide)

end AgentDesk
